import Mathlib

/-!
Verification of the custom-domain lifecycle reconciler.

Shallow embedding of the repository `ankit-sapkota/custom-domain`:
* `app/domain_queue.py`  — the pending-domain queue (`DomainQueue`);
* `app/utils.py`         — DNS verifier helpers;
* `app/caddy/caddy_config.py` — the proxy configurator and its
  copy-modify-try-load-else-rollback transactions;
* `app/caddy/caddy.py`   — the `Caddy` wrapper (add / promote / remove / audit);
* `app/api.py`           — the verify endpoint and the delete endpoint;
* `app/main.py`          — the pending-verification background loop.

Python dictionaries are modelled as association lists over `String` keys,
timestamps as `Int` seconds, and the external collaborators (the DNS
resolver, the `validators` package, the control plane's accept/reject
decision on `POST /load`, randomness and the clock) as explicit oracle
parameters collected in an `Env` record, one snapshot per invocation.
-/

namespace CustomDomain

/-! ### Python dict primitives (association lists keyed by strings) -/

/-- `dict.get(d)` on an association list: the value at the first matching key. -/
def lookupD {α : Type} : List (String × α) → String → Option α
  | [], _ => none
  | (k, v) :: rest, d => if k = d then some v else lookupD rest d

/-- Characters stripped by Python's `str.strip()` (the common whitespace). -/
def pyIsSpace (c : Char) : Bool :=
  c = ' ' || c = '\t' || c = '\n' || c = '\r' || c = '\x0b' || c = '\x0c'

/-- Python's `str.strip()`: drop leading and trailing whitespace. -/
def pyStrip (s : String) : String :=
  ⟨((s.data.dropWhile pyIsSpace).reverse.dropWhile pyIsSpace).reverse⟩

/-! ### `app/utils.py` — DNS verifier

DNS resolution is an external capability; a resolver is modelled as a
function from a domain to either an answer list or a lookup failure
(`dns.resolver.resolve` raising `NXDOMAIN`, timeout, no-answer, …). -/

inductive DnsError
  | nxdomain
  | timeout
  | noAnswer
  | network
deriving DecidableEq, Repr

/-- A-record resolution oracle: `resolve(domain, "A")`. -/
abbrev AResolver := String → Except DnsError (List String)

/-- TXT-record resolution oracle: each rdata carries a list of strings
(`rdata.strings` in dnspython). -/
abbrev TxtResolver := String → Except DnsError (List (List String))

/-- `utils.check_a_record`: true iff the domain has an A record matching
`expected_ip`; any exception yields `false`. -/
def check_a_record (resolve : AResolver) (domain expected_ip : String) : Bool :=
  match resolve domain with
  | .ok answers => answers.any (fun rdata => rdata = expected_ip)
  | .error _ => false

/-- `utils.get_a_records`: all A-record IPs; any exception yields `[]`. -/
def get_a_records (resolve : AResolver) (domain : String) : List String :=
  match resolve domain with
  | .ok answers => answers
  | .error _ => []

/-- `utils.check_txt_record`: true iff some TXT rdata string equals
`expected_value`; any exception yields `false`. -/
def check_txt_record (resolve : TxtResolver) (domain expected_value : String) : Bool :=
  match resolve domain with
  | .ok answers => answers.any (fun rdata => rdata.any (fun s => s = expected_value))
  | .error _ => false

/-! ### `app/domain_queue.py` — DomainQueue -/

inductive QStatus
  | pending
  | failed
deriving DecidableEq, Repr

/-- One queue record: `{"upstream": ..., "added_at": ..., "status": ...}`. -/
structure Entry where
  upstream : String
  added_at : Int
  status : QStatus
deriving DecidableEq, Repr

/-- The in-memory `self._pending` dict (persisted to JSON after every
mutation; persistence has no further observable effect in this model). -/
abbrev Queue := List (String × Entry)

/-- `DomainQueue.add`: insert with status pending if absent, else skip. -/
def Queue.add (q : Queue) (domain upstream : String) (now : Int) : Queue :=
  if (lookupD q domain).isSome then q
  else q ++ [(domain, ⟨upstream, now, .pending⟩)]

/-- `DomainQueue.remove`: delete the entry if present. -/
def Queue.remove (q : Queue) (domain : String) : Queue :=
  q.filter (fun p => p.1 ≠ domain)

/-- `DomainQueue.get_status`: the status or `none` when not queued. -/
def Queue.get_status (q : Queue) (domain : String) : Option QStatus :=
  (lookupD q domain).map Entry.status

/-- `DomainQueue.is_pending`. -/
def Queue.is_pending (q : Queue) (domain : String) : Bool :=
  Queue.get_status q domain = some .pending

/-- `DomainQueue.is_failed`. -/
def Queue.is_failed (q : Queue) (domain : String) : Bool :=
  Queue.get_status q domain = some .failed

/-- `DomainQueue.mark_failed`. -/
def Queue.mark_failed (q : Queue) (domain : String) : Queue :=
  q.map (fun p => if p.1 = domain then (p.1, { p.2 with status := .failed }) else p)

/-- `DomainQueue.mark_pending`: reset to pending and refresh `added_at`. -/
def Queue.mark_pending (q : Queue) (domain : String) (now : Int) : Queue :=
  q.map (fun p =>
    if p.1 = domain then (p.1, { p.2 with status := .pending, added_at := now }) else p)

/-- `DomainQueue.get_pending_only`. -/
def Queue.get_pending_only (q : Queue) : Queue :=
  q.filter (fun p => p.2.status = .pending)

/-- The per-entry expiry test of `cleanup_expired`:
`status == "pending" and now - added_at > ttl`. -/
def expiredEntry (now ttl : Int) (e : Entry) : Bool :=
  e.status = .pending && now - e.added_at > ttl

/-- `DomainQueue.cleanup_expired`: flip every expired pending entry to
failed; return the newly-failed domains (in iteration order) and the
updated queue.  `MAX_PENDING_SECONDS` is the `ttl` parameter. -/
def Queue.cleanup_expired (q : Queue) (now ttl : Int) : List String × Queue :=
  (q.filterMap (fun p => if expiredEntry now ttl p.2 then some p.1 else none),
   q.map (fun p =>
     if expiredEntry now ttl p.2 then (p.1, { p.2 with status := .failed }) else p))

/-! ### `app/caddy/saas_template.py` — config-tree helpers

The module `saas_template` is imported by `caddy_config.py` but its file is
not among the provided sources; only its call sites and exception names are.
Its route-level operations are modelled from the spec below. -/

/-- One custom-domain route: hostname match rule ↦ upstream dial target. -/
abbrev Route := String × String

/-- The proxy config document, reduced to its custom-domain routes (the
fixed server-block scaffolding carries no claim-relevant state). -/
abbrev Config := List Route

inductive TemplateError
  | domainAlreadyExists
  | domainDoesNotExist
deriving DecidableEq, Repr

/-- Modelled from the spec: `saas_template.add_https_domain` (module absent
from the sources) computes current config + one new route for
domain ↦ upstream and raises `DomainAlreadyExists` when the domain is
already routed. -/
def add_https_domain (domain upstream : String) (template : Config) :
    Except TemplateError Config :=
  if (template.map Prod.fst).contains domain then .error .domainAlreadyExists
  else .ok (template ++ [(domain, upstream)])

/-- Modelled from the spec: `saas_template.delete_https_domain` (module
absent from the sources) removes the domain's route and raises
`DomainDoesNotExist` when absent. -/
def delete_https_domain (domain : String) (config : Config) :
    Except TemplateError Config :=
  if (config.map Prod.fst).contains domain then
    .ok (config.filter (fun r => r.1 ≠ domain))
  else .error .domainDoesNotExist

/-- Modelled from the spec: `saas_template.list_domains` (module absent from
the sources) extracts all configured route hostnames. -/
def config_list_domains (config : Config) : List String :=
  config.map Prod.fst

/-! ### `app/caddy/caddy_config.py` — CaddyAPIConfigurator

The control plane is the external proxy admin API: `POST /load` either
accepts a document (2xx — the document becomes the live config) or rejects
it (non-2xx — the live config is untouched).  Its accept/reject decision is
an oracle `accept : Config → Bool`.  The configurator state pairs the cached
`self.config` with the control plane's authoritative live config. -/

structure Configurator where
  /-- `self.config`, the configurator's cached copy. -/
  config : Config
  /-- The control plane's authoritative current config (what `GET /config/`
  returns). -/
  cp : Config
deriving DecidableEq, Repr

/-- `CaddyAPIConfigurator.load_new_config`: on acceptance the control plane
adopts the document and `self.config` is updated; on rejection both are left
untouched and `False` is returned. -/
def load_new_config (accept : Config → Bool) (c : Configurator) (newCfg : Config) :
    Bool × Configurator :=
  if accept newCfg then (true, ⟨newCfg, newCfg⟩) else (false, c)

inductive CaddyError
  | domainAlreadyExists
  | notFound
  | badRequest
  | serverIpUnavailable
  | removeFailed
deriving DecidableEq, Repr

/-- `CaddyAPIConfigurator.add_domain`: copy the current config, compute the
new document, try loading it; on rejection re-load the prior config and
return `false`; `DomainAlreadyExists` propagates as an exception. -/
def Configurator.add_domain (accept : Config → Bool) (c : Configurator)
    (domain upstream : String) : Except CaddyError (Bool × Configurator) :=
  match add_https_domain domain upstream c.config with
  | .error _ => .error .domainAlreadyExists
  | .ok newCfg =>
      let r1 := load_new_config accept c newCfg
      if r1.1 then .ok (true, r1.2)
      else
        let r2 := load_new_config accept r1.2 c.config
        .ok (false, r2.2)

/-- `CaddyAPIConfigurator.delete_domain`: the symmetric transaction;
`DomainDoesNotExist` surfaces as an HTTP 404. -/
def Configurator.delete_domain (accept : Config → Bool) (c : Configurator)
    (domain : String) : Except CaddyError (Bool × Configurator) :=
  match delete_https_domain domain c.config with
  | .error _ => .error .notFound
  | .ok newCfg =>
      let r1 := load_new_config accept c newCfg
      if r1.1 then .ok (true, r1.2)
      else
        let r2 := load_new_config accept r1.2 c.config
        .ok (false, r2.2)

/-- `CaddyAPIConfigurator.list_domains`: derived from the control plane's
authoritative current config, not the cached copy. -/
def Configurator.list_domains (c : Configurator) : List String :=
  config_list_domains c.cp

/-! ### System state and environment

`caddy_server` and `pending_queue` are module-level singletons; the whole
mutable state of the process is gathered into one record, together with the
per-domain token files under `domains/texts/` (`domain ↦ raw file
contents`). -/

structure CaddyState where
  /-- `self.server_ip` (`get_server_ip()` may fail, hence `Option`). -/
  serverIp : Option String
  /-- `self.saas_upstream`. -/
  saasUpstream : String
  configurator : Configurator
deriving DecidableEq, Repr

structure SysState where
  caddy : CaddyState
  queue : Queue
  /-- Token files: `domains/texts/{domain}.txt ↦ contents`. -/
  files : List (String × String)
deriving DecidableEq, Repr

/-- One invocation's snapshot of the external world: the `validators`
package, the control plane's accept decision, the DNS resolvers, the clock,
the TTL configuration and the next random token. -/
structure Env where
  valid : String → Bool
  accept : Config → Bool
  aRecords : AResolver
  txtRecords : TxtResolver
  now : Int
  ttl : Int
  freshToken : String

/-- `caddy_server.list_domains()`. -/
def liveD (st : SysState) : List String :=
  Configurator.list_domains st.caddy.configurator

/-- `upstream or self.saas_upstream` (Python truthiness: an empty string
also falls back to the default). -/
def resolveUpstream (upstream : Option String) (saas : String) : String :=
  match upstream with
  | some u => if u = "" then saas else u
  | none => saas

/-- `Caddy.add_custom_domain`: validate, then enqueue for background
verification unless the domain is already live. -/
def add_custom_domain (env : Env) (st : SysState) (domain : String)
    (upstream : Option String) : Except CaddyError Unit × SysState :=
  if env.valid domain = false then (.error .badRequest, st)
  else
    let u := resolveUpstream upstream st.caddy.saasUpstream
    if domain ∈ liveD st then (.ok (), st)
    else (.ok (), { st with queue := Queue.add st.queue domain u env.now })

/-- `Caddy.promote_domain`: add the verified domain into the live config
through the configurator transaction (then persist the snapshot, which has
no further observable state in this model).  `DomainAlreadyExists`
propagates. -/
def promote_domain (env : Env) (st : SysState) (domain upstream : String) :
    Except CaddyError (Bool × SysState) :=
  match Configurator.add_domain env.accept st.caddy.configurator domain upstream with
  | .error e => .error e
  | .ok (ok, c') => .ok (ok, { st with caddy := { st.caddy with configurator := c' } })

/-- `Caddy.remove_custom_domain`: validate, run the delete transaction,
raise HTTP 400 when the transaction reports failure. -/
def remove_custom_domain (env : Env) (st : SysState) (domain : String) :
    Except CaddyError Unit × SysState :=
  if env.valid domain = false then (.error .badRequest, st)
  else
    match Configurator.delete_domain env.accept st.caddy.configurator domain with
    | .error e => (.error e, st)
    | .ok (ok, c') =>
        let st' := { st with caddy := { st.caddy with configurator := c' } }
        if ok then (.ok (), st') else (.error .removeFailed, st')

/-- One iteration of the `for domain in domains` loop of
`Caddy.audit_domains`: remove the domain when its A record no longer points
at the server; per-domain exceptions are caught, and the domain is appended
to `removed` whenever `delete_domain` returns (even reporting failure, as in
the source). -/
def audit_step (env : Env) (ip : String) (acc : List String × Configurator)
    (domain : String) : List String × Configurator :=
  if check_a_record env.aRecords domain ip then acc
  else
    match Configurator.delete_domain env.accept acc.2 domain with
    | .error _ => acc
    | .ok (_, c') => (acc.1 ++ [domain], c')

/-- `Caddy.audit_domains`: skip when the server IP is unknown, otherwise
sweep every live domain. -/
def audit_domains (env : Env) (st : SysState) : List String × SysState :=
  match st.caddy.serverIp with
  | none => ([], st)
  | some ip =>
      let r := (liveD st).foldl (audit_step env ip) ([], st.caddy.configurator)
      (r.1, { st with caddy := { st.caddy with configurator := r.2 } })

/-! ### `app/api.py` — verify endpoint, delete endpoint, token store -/

/-- The per-domain challenge-token logic of `verify_domain` (spec name
`getOrCreateToken`): return the file's trimmed contents when it exists, else
persist a fresh random token and return it. -/
def getOrCreateToken (files : List (String × String)) (domain fresh : String) :
    String × List (String × String) :=
  match lookupD files domain with
  | some contents => (pyStrip contents, files)
  | none => (fresh, files ++ [(domain, fresh)])

/-- `"pending"` / `"failed"` as rendered in API responses. -/
def statusString : QStatus → String
  | .pending => "pending"
  | .failed => "failed"

/-- The response of `GET /domains/verify/{domain}` (the fields the claims
speak about). -/
structure VerifyResult where
  server_ip : String
  queue_status : Option String
  domain_verified : Bool
  txt_verified : Bool
deriving DecidableEq, Repr

/-- The response tail of `verify_domain`: queue status overridden to
`"verified"` when the domain is live. -/
def verifyResult (st : SysState) (domain server_ip : String)
    (a_ok txt_ok : Bool) : VerifyResult :=
  { server_ip := server_ip
    queue_status :=
      if domain ∈ liveD st then some "verified"
      else (Queue.get_status st.queue domain).map statusString
    domain_verified := a_ok
    txt_verified := txt_ok }

/-- The tracking phase of `verify_domain`: enqueue (via
`add_custom_domain`) when the domain is neither live nor queued. -/
def verify_track (env : Env) (st : SysState) (domain : String)
    (upstream : Option String) (already_verified : Bool) :
    Except CaddyError Unit × SysState :=
  if already_verified = false ∧ (Queue.get_status st.queue domain).isNone
  then add_custom_domain env st domain upstream
  else (.ok (), st)

/-- The reset phase of `verify_domain`: a failed domain goes back to
pending (with a fresh TTL). -/
def verify_reset (env : Env) (st : SysState) (domain : String) : SysState :=
  if Queue.is_failed st.queue domain
  then { st with queue := Queue.mark_pending st.queue domain env.now }
  else st

/-- The promotion phase of `verify_domain`: try `promote_domain`, and on
success remove the domain from the pending queue. -/
def verify_promote (env : Env) (st : SysState) (domain resolved_upstream server_ip : String)
    (a_ok txt_ok : Bool) : Except CaddyError VerifyResult × SysState :=
  match promote_domain env st domain resolved_upstream with
  | .error e => (.error e, st)
  | .ok (ok, st4) =>
      let st5 := if ok then { st4 with queue := Queue.remove st4.queue domain } else st4
      (.ok (verifyResult st5 domain server_ip a_ok txt_ok), st5)

/-- `api.verify_domain` (GET /domains/verify/{domain}): enqueue when
untracked, reset a failed domain to pending, read-or-create the token,
run both DNS checks, then promote when everything passes. -/
def verify_domain (env : Env) (st : SysState) (domain : String)
    (upstream : Option String) : Except CaddyError VerifyResult × SysState :=
  match st.caddy.serverIp with
  | none => (.error .serverIpUnavailable, st)
  | some server_ip =>
    let resolved_upstream := resolveUpstream upstream st.caddy.saasUpstream
    let already_verified : Bool := domain ∈ liveD st
    let r1 := verify_track env st domain upstream already_verified
    match r1.1 with
    | .error e => (.error e, r1.2)
    | .ok _ =>
      let st2 := verify_reset env r1.2 domain
      let tk := getOrCreateToken st2.files domain env.freshToken
      let st3 := { st2 with files := tk.2 }
      let a_ok := check_a_record env.aRecords domain server_ip
      let txt_ok := check_txt_record env.txtRecords domain tk.1
      if a_ok ∧ txt_ok ∧ already_verified = false ∧ Queue.is_pending st3.queue domain
      then verify_promote env st3 domain resolved_upstream server_ip a_ok txt_ok
      else (.ok (verifyResult st3 domain server_ip a_ok txt_ok), st3)

/-- `api.remove_domains` (DELETE /domains): drop from the queue, remove from
the live config when present (an exception there aborts before the token
file is deleted), then delete the token file. -/
def remove_domains (env : Env) (st : SysState) (domain : String) :
    Except CaddyError Unit × SysState :=
  let st1 := { st with queue := Queue.remove st.queue domain }
  let r :=
    if domain ∈ liveD st1 then remove_custom_domain env st1 domain
    else (.ok (), st1)
  match r.1 with
  | .error e => (.error e, r.2)
  | .ok _ => (.ok (), { r.2 with files := r.2.files.filter (fun p => p.1 ≠ domain) })

/-! ### `app/main.py` — the pending-verification loop body -/

/-- The TXT check of the loop: read the persisted token; a missing file or
empty trimmed token means not verified. -/
def loop_txt_ok (env : Env) (st : SysState) (domain : String) : Bool :=
  match lookupD st.files domain with
  | some contents =>
      if pyStrip contents ≠ "" then check_txt_record env.txtRecords domain (pyStrip contents)
      else false
  | none => false

/-- One iteration of the `for domain, info in pending.items()` loop: promote
when both records verify; a promotion exception aborts the whole sweep
(caught by the loop-level handler), modelled by `.error` carrying the state
at the abort point. -/
def tick_step (env : Env) (ip : String) (st : SysState) (item : String × Entry) :
    Except SysState SysState :=
  let domain := item.1
  let a_ok := check_a_record env.aRecords domain ip
  let txt_ok := loop_txt_ok env st domain
  if a_ok ∧ txt_ok then
    match promote_domain env st domain item.2.upstream with
    | .error _ => .error st
    | .ok (true, st') => .ok { st' with queue := Queue.remove st'.queue domain }
    | .ok (false, st') => .ok st'
  else .ok st

/-- Sequential processing of the pending snapshot; an exception abandons the
rest of the iteration and the state at that point stands. -/
def tick_fold (env : Env) (ip : String) : SysState → List (String × Entry) → SysState
  | st, [] => st
  | st, item :: rest =>
      match tick_step env ip st item with
      | .ok st' => tick_fold env ip st' rest
      | .error stAbort => stAbort

/-- One wake-up of `_pending_verification_loop`: sweep expired entries, then
verify and promote every currently-pending domain (skipped when the server
IP is unknown). -/
def pending_tick (env : Env) (st : SysState) : SysState :=
  let st1 := { st with queue := (Queue.cleanup_expired st.queue env.now env.ttl).2 }
  match st1.caddy.serverIp with
  | none => st1
  | some ip => tick_fold env ip st1 (Queue.get_pending_only st1.queue)

/-! ### The transition system -/

/-- The clean-start state: `init_config` loads the SaaS template, which
routes no custom domain; queue and token store are empty. -/
def initState (ip : Option String) (saas : String) : SysState :=
  { caddy := { serverIp := ip, saasUpstream := saas, configurator := ⟨[], []⟩ }
    queue := []
    files := [] }

/-- One observable operation of the system (an HTTP endpoint call or a
scheduler wake-up), with an arbitrary environment snapshot. -/
inductive Step : SysState → SysState → Prop
  | add (env : Env) (st : SysState) (d : String) (u : Option String) :
      Step st (add_custom_domain env st d u).2
  | verify (env : Env) (st : SysState) (d : String) (u : Option String) :
      Step st (verify_domain env st d u).2
  | tick (env : Env) (st : SysState) :
      Step st (pending_tick env st)
  | del (env : Env) (st : SysState) (d : String) :
      Step st (remove_domains env st d).2
  | audit (env : Env) (st : SysState) :
      Step st (audit_domains env st).2

/-- States reachable from a clean start by any sequence of operations. -/
inductive Reachable : SysState → Prop
  | init (ip : Option String) (saas : String) : Reachable (initState ip saas)
  | step {s s' : SysState} : Reachable s → Step s s' → Reachable s'

/-! ## Lemma layer -/

/-! ### `lookupD` -/

@[simp] theorem lookupD_nil {α : Type} (d : String) :
    lookupD ([] : List (String × α)) d = none := rfl

@[simp] theorem lookupD_cons {α : Type} (k : String) (v : α) (rest : List (String × α))
    (d : String) :
    lookupD ((k, v) :: rest) d = if k = d then some v else lookupD rest d := rfl

theorem lookupD_append {α : Type} (l₁ l₂ : List (String × α)) (d : String) :
    lookupD (l₁ ++ l₂) d = (lookupD l₁ d).or (lookupD l₂ d) := by
  induction l₁ with
  | nil => simp
  | cons p rest ih =>
      obtain ⟨k, v⟩ := p
      by_cases h : k = d <;> simp [h, ih]

theorem lookupD_isSome_iff_mem_keys {α : Type} (l : List (String × α)) (d : String) :
    (lookupD l d).isSome ↔ d ∈ l.map Prod.fst := by
  induction l with
  | nil => simp
  | cons p rest ih =>
      obtain ⟨k, v⟩ := p
      by_cases h : k = d
      · simp [h]
      · simp only [lookupD_cons, h, if_false, List.map_cons, List.mem_cons, ih]
        constructor
        · exact Or.inr
        · rintro (h' | h')
          · exact absurd h'.symm h
          · exact h'

theorem lookupD_eq_none_iff {α : Type} (l : List (String × α)) (d : String) :
    lookupD l d = none ↔ d ∉ l.map Prod.fst := by
  rw [← lookupD_isSome_iff_mem_keys, Option.not_isSome_iff_eq_none]

theorem lookupD_mem {α : Type} {l : List (String × α)} {d : String} {v : α}
    (h : lookupD l d = some v) : (d, v) ∈ l := by
  induction l with
  | nil => simp at h
  | cons p rest ih =>
      obtain ⟨k, w⟩ := p
      by_cases hk : k = d
      · subst hk; simp at h; simp [h]
      · simp [hk] at h; simp [ih h]

/-! ### Queue operations -/

theorem Queue.remove_cons (k : String) (v : Entry) (rest : Queue) (d : String) :
    Queue.remove ((k, v) :: rest) d =
      if k = d then Queue.remove rest d else (k, v) :: Queue.remove rest d := by
  rw [Queue.remove, List.filter_cons]
  by_cases h : k = d <;> simp [h, Queue.remove]

theorem Queue.lookupD_remove (q : Queue) (d x : String) :
    lookupD (Queue.remove q d) x = if x = d then none else lookupD q x := by
  induction q with
  | nil => simp [Queue.remove]
  | cons p rest ih =>
      obtain ⟨k, v⟩ := p
      rw [Queue.remove_cons]
      by_cases hk : k = d
      · rw [if_pos hk, ih]
        by_cases hx : x = d
        · rw [if_pos hx, if_pos hx]
        · rw [if_neg hx, if_neg hx, lookupD_cons,
            if_neg (fun h : k = x => hx (h ▸ hk ▸ rfl))]
      · rw [if_neg hk, lookupD_cons, lookupD_cons]
        by_cases hkx : k = x
        · rw [if_pos hkx, if_neg (fun h : x = d => hk (hkx.trans h)), if_pos hkx]
        · rw [if_neg hkx, if_neg hkx, ih]

theorem Queue.mark_pending_cons (k : String) (v : Entry) (rest : Queue) (d : String)
    (t : Int) :
    Queue.mark_pending ((k, v) :: rest) d t =
      (if k = d then (k, { v with status := .pending, added_at := t }) else (k, v)) ::
        Queue.mark_pending rest d t := by
  rw [Queue.mark_pending, List.map_cons]
  by_cases h : k = d <;> simp [h, Queue.mark_pending]

theorem Queue.lookupD_mark_pending (q : Queue) (d : String) (t : Int) (x : String) :
    lookupD (Queue.mark_pending q d t) x =
      if x = d then
        (lookupD q x).map (fun e => { e with status := .pending, added_at := t })
      else lookupD q x := by
  induction q with
  | nil => simp [Queue.mark_pending]
  | cons p rest ih =>
      obtain ⟨k, v⟩ := p
      rw [Queue.mark_pending_cons]
      by_cases hk : k = d
      · rw [if_pos hk, lookupD_cons, lookupD_cons]
        by_cases hkx : k = x
        · rw [if_pos hkx, if_pos hkx, if_pos (hkx ▸ hk ▸ rfl : x = d)]
          simp
        · rw [if_neg hkx, if_neg hkx, ih]
      · rw [if_neg hk, lookupD_cons, lookupD_cons]
        by_cases hkx : k = x
        · rw [if_pos hkx, if_pos hkx,
            if_neg (fun h : x = d => hk (hkx.trans h))]
        · rw [if_neg hkx, if_neg hkx, ih]

theorem Queue.cleanup_snd_cons (k : String) (v : Entry) (rest : Queue) (now ttl : Int) :
    (Queue.cleanup_expired ((k, v) :: rest) now ttl).2 =
      (if expiredEntry now ttl v then (k, { v with status := .failed }) else (k, v)) ::
        (Queue.cleanup_expired rest now ttl).2 := by
  rw [Queue.cleanup_expired, List.map_cons]
  by_cases h : expiredEntry now ttl v <;> simp [h, Queue.cleanup_expired]

theorem Queue.lookupD_cleanup (q : Queue) (now ttl : Int) (x : String) :
    lookupD (Queue.cleanup_expired q now ttl).2 x =
      (lookupD q x).map
        (fun e => if expiredEntry now ttl e then { e with status := .failed } else e) := by
  induction q with
  | nil => simp [Queue.cleanup_expired]
  | cons p rest ih =>
      obtain ⟨k, v⟩ := p
      rw [Queue.cleanup_snd_cons]
      by_cases he : expiredEntry now ttl v
      · rw [if_pos he, lookupD_cons, lookupD_cons]
        by_cases hkx : k = x
        · rw [if_pos hkx, if_pos hkx]
          simp [he]
        · rw [if_neg hkx, if_neg hkx, ih]
      · rw [if_neg he, lookupD_cons, lookupD_cons]
        by_cases hkx : k = x
        · rw [if_pos hkx, if_pos hkx]
          simp [he]
        · rw [if_neg hkx, if_neg hkx, ih]

theorem Queue.mem_cleanup_failed {q : Queue} {now ttl : Int} {x : String}
    (h : x ∈ (Queue.cleanup_expired q now ttl).1) :
    ∃ e, (x, e) ∈ q ∧ expiredEntry now ttl e = true := by
  simp only [Queue.cleanup_expired, List.mem_filterMap] at h
  obtain ⟨⟨k, e⟩, hmem, hcond⟩ := h
  by_cases hexp : expiredEntry now ttl e
  · simp [hexp] at hcond; subst hcond; exact ⟨e, hmem, hexp⟩
  · simp [hexp] at hcond

theorem Queue.lookupD_add_of_ne (q : Queue) (d u : String) (t : Int) {x : String}
    (hx : x ≠ d) : lookupD (Queue.add q d u t) x = lookupD q x := by
  rw [Queue.add]
  by_cases h : (lookupD q d).isSome
  · rw [if_pos h]
  · rw [if_neg h, lookupD_append, lookupD_cons,
      if_neg (fun h' : d = x => hx h'.symm), lookupD_nil]
    cases lookupD q x <;> rfl

theorem Queue.lookupD_add_self (q : Queue) (d u : String) (t : Int)
    (h : lookupD q d = none) :
    lookupD (Queue.add q d u t) d = some ⟨u, t, .pending⟩ := by
  rw [Queue.add]
  simp [h, lookupD_append]

theorem Queue.add_of_isSome (q : Queue) (d u : String) (t : Int)
    (h : (lookupD q d).isSome) : Queue.add q d u t = q := by
  simp [Queue.add, h]

theorem expiredEntry_eq_true_iff (now ttl : Int) (e : Entry) :
    expiredEntry now ttl e = true ↔ e.status = .pending ∧ now - e.added_at > ttl := by
  simp [expiredEntry]

theorem Queue.cleanup_fst_cons (k : String) (v : Entry) (rest : Queue) (now ttl : Int) :
    (Queue.cleanup_expired ((k, v) :: rest) now ttl).1 =
      (if expiredEntry now ttl v then [k] else []) ++
        (Queue.cleanup_expired rest now ttl).1 := by
  rw [Queue.cleanup_expired, List.filterMap_cons]
  by_cases h : expiredEntry now ttl v <;> simp [h, Queue.cleanup_expired]

theorem Queue.mem_keys_of_mem_cleanup {q : Queue} {now ttl : Int} {x : String}
    (h : x ∈ (Queue.cleanup_expired q now ttl).1) : x ∈ q.map Prod.fst := by
  obtain ⟨e, hm, _⟩ := Queue.mem_cleanup_failed h
  exact List.mem_map.mpr ⟨(x, e), hm, rfl⟩

theorem Queue.mem_cleanup_iff_of_nodup {q : Queue} {now ttl : Int} {d : String}
    (hnd : (q.map Prod.fst).Nodup) :
    d ∈ (Queue.cleanup_expired q now ttl).1 ↔
      ∃ e, lookupD q d = some e ∧ expiredEntry now ttl e = true := by
  induction q with
  | nil => simp [Queue.cleanup_expired]
  | cons p rest ih =>
      obtain ⟨k, v⟩ := p
      simp only [List.map_cons, List.nodup_cons] at hnd
      obtain ⟨hk, hrest⟩ := hnd
      rw [Queue.cleanup_fst_cons]
      by_cases hkd : k = d
      · subst hkd
        rw [lookupD_cons]
        constructor
        · intro hmem
          rcases List.mem_append.mp hmem with h1 | h1
          · by_cases he : expiredEntry now ttl v
            · exact ⟨v, by simp, he⟩
            · simp [he] at h1
          · exact absurd (Queue.mem_keys_of_mem_cleanup h1) hk
        · rintro ⟨e, he, hexp⟩
          simp only [if_pos rfl] at he
          obtain rfl : v = e := by injection he
          simp [hexp]
      · rw [lookupD_cons, if_neg hkd]
        constructor
        · intro hmem
          rcases List.mem_append.mp hmem with h1 | h1
          · by_cases he : expiredEntry now ttl v
            · simp [he] at h1; exact absurd h1.symm hkd
            · simp [he] at h1
          · exact (ih hrest).mp h1
        · intro h
          exact List.mem_append.mpr (Or.inr ((ih hrest).mpr h))

/-! ## Claims on the pending queue, the token store and the DNS verifier -/

/-- C4: for every queued domain `d`, `sweepExpired(ttl)` (i.e.
`DomainQueue.cleanup_expired`) flips `d`'s status to failed iff `d` is
pending and `now - enqueued_at(d) > ttl`, leaving the rest of the entry (and
non-matching entries) untouched and absent entries absent, and it returns
exactly the newly-failed domains. -/
theorem C4_sweepExpired_flips_iff_pending_expired (q : Queue) (now ttl : Int)
    (d : String) (hnd : (q.map Prod.fst).Nodup) :
    (lookupD (Queue.cleanup_expired q now ttl).2 d =
      (lookupD q d).map (fun e =>
        if e.status = .pending ∧ now - e.added_at > ttl
        then { e with status := .failed } else e)) ∧
    (d ∈ (Queue.cleanup_expired q now ttl).1 ↔
      ∃ e, lookupD q d = some e ∧ e.status = .pending ∧ now - e.added_at > ttl) := by
  constructor
  · rw [Queue.lookupD_cleanup]
    cases lookupD q d with
    | none => rfl
    | some e =>
        simp only [Option.map_some']
        by_cases he : expiredEntry now ttl e
        · rw [if_pos he, if_pos ((expiredEntry_eq_true_iff now ttl e).mp he)]
        · rw [if_neg he,
            if_neg (fun hc => he ((expiredEntry_eq_true_iff now ttl e).mpr hc))]
  · rw [Queue.mem_cleanup_iff_of_nodup hnd]
    constructor
    · rintro ⟨e, h1, h2⟩
      exact ⟨e, h1, (expiredEntry_eq_true_iff now ttl e).mp h2⟩
    · rintro ⟨e, h1, h2⟩
      exact ⟨e, h1, (expiredEntry_eq_true_iff now ttl e).mpr h2⟩

/-- Witness for C4, evaluated on a one-entry queue with an expired pending
domain. -/
theorem C4_sweepExpired_flips_iff_pending_expired_witness :
    (lookupD (Queue.cleanup_expired [("a.com", ⟨"up:443", 0, .pending⟩)] 100 50).2 "a.com" =
      (lookupD [("a.com", (⟨"up:443", 0, .pending⟩ : Entry))] "a.com").map (fun e =>
        if e.status = .pending ∧ (100 : Int) - e.added_at > 50
        then { e with status := .failed } else e)) ∧
    ("a.com" ∈ (Queue.cleanup_expired [("a.com", ⟨"up:443", 0, .pending⟩)] 100 50).1 ↔
      ∃ e, lookupD [("a.com", (⟨"up:443", 0, .pending⟩ : Entry))] "a.com" = some e ∧
        e.status = .pending ∧ (100 : Int) - e.added_at > 50) :=
  C4_sweepExpired_flips_iff_pending_expired
    [("a.com", ⟨"up:443", 0, .pending⟩)] 100 50 "a.com" (by decide)

/-- C8: `markPending` always resets the TTL clock: for a queued domain `d`,
after `mark_pending(d)` at time `t` the entry is pending with `added_at = t`,
and a following `sweepExpired(ttl)` at time `tnow` with `tnow - t ≤ ttl`
neither returns `d` among the newly-failed nor marks it failed, even if the
original enqueue time was already expired. -/
theorem C8_markPending_resets_ttl_clock (q : Queue) (d : String) (t tnow ttl : Int)
    (hq : (lookupD q d).isSome) (hlate : tnow - t ≤ ttl) :
    Queue.get_status (Queue.mark_pending q d t) d = some .pending ∧
    (lookupD (Queue.mark_pending q d t) d).map Entry.added_at = some t ∧
    d ∉ (Queue.cleanup_expired (Queue.mark_pending q d t) tnow ttl).1 ∧
    Queue.get_status (Queue.cleanup_expired (Queue.mark_pending q d t) tnow ttl).2 d =
      some .pending := by
  obtain ⟨e, he⟩ := Option.isSome_iff_exists.mp hq
  have hmark : lookupD (Queue.mark_pending q d t) d =
      some { e with status := .pending, added_at := t } := by
    rw [Queue.lookupD_mark_pending, if_pos rfl, he, Option.map_some']
  have hnexp : expiredEntry tnow ttl { e with status := .pending, added_at := t } = false := by
    simp [expiredEntry]
    omega
  refine ⟨?_, ?_, ?_, ?_⟩
  · rw [Queue.get_status, hmark, Option.map_some']
  · rw [hmark, Option.map_some']
  · intro hmem
    obtain ⟨e', hm', hexp'⟩ := Queue.mem_cleanup_failed hmem
    rw [Queue.mark_pending] at hm'
    obtain ⟨⟨k, v⟩, hkv, heq⟩ := List.mem_map.mp hm'
    by_cases hk : k = d
    · rw [if_pos hk] at heq
      obtain ⟨h1, h2⟩ := Prod.mk.injEq .. ▸ heq
      rw [← h2] at hexp'
      simp [expiredEntry] at hexp'
      omega
    · rw [if_neg hk] at heq
      exact hk (congrArg Prod.fst heq)
  · rw [Queue.get_status, Queue.lookupD_cleanup, hmark, Option.map_some', Option.map_some',
      hnexp]
    simp

/-- Witness for C8 on a one-entry queue whose original enqueue time is long
expired. -/
theorem C8_markPending_resets_ttl_clock_witness :
    Queue.get_status (Queue.mark_pending [("a.com", ⟨"u", 0, .failed⟩)] "a.com" 1000) "a.com" =
      some .pending ∧
    (lookupD (Queue.mark_pending [("a.com", ⟨"u", 0, .failed⟩)] "a.com" 1000) "a.com").map
      Entry.added_at = some 1000 ∧
    "a.com" ∉ (Queue.cleanup_expired
      (Queue.mark_pending [("a.com", ⟨"u", 0, .failed⟩)] "a.com" 1000) 1001 50).1 ∧
    Queue.get_status (Queue.cleanup_expired
      (Queue.mark_pending [("a.com", ⟨"u", 0, .failed⟩)] "a.com" 1000) 1001 50).2 "a.com" =
      some .pending :=
  C8_markPending_resets_ttl_clock [("a.com", ⟨"u", 0, .failed⟩)] "a.com" 1000 1001 50
    (by decide) (by decide)

/-- C5: once a token is persisted by the first `getOrCreateToken(d)` call,
every later call returns the same token with the store unchanged; while a
token file exists its trimmed contents are returned verbatim and the token
is never regenerated. -/
theorem C5_token_round_trip (files : List (String × String)) (d fresh fresh2 : String)
    (hfresh : pyStrip fresh = fresh) :
    (∀ c, lookupD files d = some c → getOrCreateToken files d fresh = (pyStrip c, files)) ∧
    (lookupD files d = none →
      getOrCreateToken (getOrCreateToken files d fresh).2 d fresh2 =
        getOrCreateToken files d fresh) := by
  constructor
  · intro c hc
    simp only [getOrCreateToken, hc]
  · intro hnone
    have h1 : getOrCreateToken files d fresh = (fresh, files ++ [(d, fresh)]) := by
      simp only [getOrCreateToken, hnone]
    have h2 : lookupD (files ++ [(d, fresh)]) d = some fresh := by
      rw [lookupD_append, hnone, lookupD_cons, if_pos rfl, Option.none_or]
    rw [h1]
    simp only [getOrCreateToken, h2, hfresh]

/-- Witness for C5: create a token, then read it back unchanged. -/
theorem C5_token_round_trip_witness :
    getOrCreateToken (getOrCreateToken [] "a.com" "bettercollected_x").2 "a.com"
        "bettercollected_y" =
      getOrCreateToken [] "a.com" "bettercollected_x" :=
  (C5_token_round_trip [] "a.com" "bettercollected_x" "bettercollected_y" (by decide)).2 rfl

/-- C6: DNS lookup failures inside the verifier never propagate: `checkA`
and `checkTXT` return false and `resolveA` (i.e. `get_a_records`) returns
the empty list on any lookup failure. -/
theorem C6_dns_failures_degrade (ra : AResolver) (rt : TxtResolver)
    (domain expected_ip txt_expected : String) (e e' : DnsError)
    (ha : ra domain = .error e) (ht : rt domain = .error e') :
    check_a_record ra domain expected_ip = false ∧
    get_a_records ra domain = [] ∧
    check_txt_record rt domain txt_expected = false := by
  rw [check_a_record, get_a_records, check_txt_record, ha, ht]
  exact ⟨rfl, rfl, rfl⟩

/-- Witness for C6 with a resolver that times out on everything. -/
theorem C6_dns_failures_degrade_witness :
    check_a_record (fun _ => .error .timeout) "a.com" "1.2.3.4" = false ∧
    get_a_records (fun _ => .error .timeout) "a.com" = [] ∧
    check_txt_record (fun _ => .error .nxdomain) "a.com" "tok" = false :=
  C6_dns_failures_degrade (fun _ => .error .timeout) (fun _ => .error .nxdomain)
    "a.com" "1.2.3.4" "tok" .timeout .nxdomain rfl rfl

/-! ### Configurator transaction characterizations -/

theorem Configurator.mk_eq_of_sync {c : Configurator} (h : c.config = c.cp) :
    (⟨c.config, c.config⟩ : Configurator) = c := by
  cases c with
  | mk config cp => simp only at h; rw [h]

theorem add_https_domain_of_mem {d : String} (u : String) {template : Config}
    (h : d ∈ template.map Prod.fst) :
    add_https_domain d u template = .error .domainAlreadyExists := by
  rw [add_https_domain, if_pos (by simpa using h)]

theorem add_https_domain_of_not_mem {d : String} (u : String) {template : Config}
    (h : d ∉ template.map Prod.fst) :
    add_https_domain d u template = .ok (template ++ [(d, u)]) := by
  rw [add_https_domain, if_neg (by simpa using h)]

theorem delete_https_domain_of_mem {d : String} {config : Config}
    (h : d ∈ config.map Prod.fst) :
    delete_https_domain d config = .ok (config.filter (fun r => r.1 ≠ d)) := by
  rw [delete_https_domain, if_pos (by simpa using h)]

theorem delete_https_domain_of_not_mem {d : String} {config : Config}
    (h : d ∉ config.map Prod.fst) :
    delete_https_domain d config = .error .domainDoesNotExist := by
  rw [delete_https_domain, if_neg (by simpa using h)]

theorem Configurator.add_domain_of_mem (accept : Config → Bool) (c : Configurator)
    {d : String} (u : String) (h : d ∈ c.config.map Prod.fst) :
    Configurator.add_domain accept c d u = .error .domainAlreadyExists := by
  simp only [Configurator.add_domain, add_https_domain_of_mem u h]

theorem Configurator.add_domain_of_accept (accept : Config → Bool) (c : Configurator)
    {d : String} (u : String) (h : d ∉ c.config.map Prod.fst)
    (ha : accept (c.config ++ [(d, u)]) = true) :
    Configurator.add_domain accept c d u =
      .ok (true, ⟨c.config ++ [(d, u)], c.config ++ [(d, u)]⟩) := by
  simp only [Configurator.add_domain, add_https_domain_of_not_mem u h,
    load_new_config, ha, if_true]

theorem Configurator.add_domain_of_reject (accept : Config → Bool) (c : Configurator)
    {d : String} (u : String) (hsync : c.config = c.cp)
    (h : d ∉ c.config.map Prod.fst) (ha : accept (c.config ++ [(d, u)]) = false) :
    Configurator.add_domain accept c d u = .ok (false, c) := by
  simp only [Configurator.add_domain, add_https_domain_of_not_mem u h,
    load_new_config, ha, Bool.false_eq_true, if_false]
  by_cases hb : accept c.config = true
  · simp only [hb, if_true, Configurator.mk_eq_of_sync hsync]
  · simp only [hb, Bool.false_eq_true, if_false]

theorem Configurator.delete_domain_of_not_mem (accept : Config → Bool)
    (c : Configurator) {d : String} (h : d ∉ c.config.map Prod.fst) :
    Configurator.delete_domain accept c d = .error .notFound := by
  simp only [Configurator.delete_domain, delete_https_domain_of_not_mem h]

theorem Configurator.delete_domain_of_accept (accept : Config → Bool)
    (c : Configurator) {d : String} (h : d ∈ c.config.map Prod.fst)
    (ha : accept (c.config.filter (fun r => r.1 ≠ d)) = true) :
    Configurator.delete_domain accept c d =
      .ok (true, ⟨c.config.filter (fun r => r.1 ≠ d),
        c.config.filter (fun r => r.1 ≠ d)⟩) := by
  simp only [Configurator.delete_domain, delete_https_domain_of_mem h,
    load_new_config, ha, if_true]

theorem Configurator.delete_domain_of_reject (accept : Config → Bool)
    (c : Configurator) {d : String} (hsync : c.config = c.cp)
    (h : d ∈ c.config.map Prod.fst)
    (ha : accept (c.config.filter (fun r => r.1 ≠ d)) = false) :
    Configurator.delete_domain accept c d = .ok (false, c) := by
  simp only [Configurator.delete_domain, delete_https_domain_of_mem h,
    load_new_config, ha, Bool.false_eq_true, if_false]
  by_cases hb : accept c.config = true
  · simp only [hb, if_true, Configurator.mk_eq_of_sync hsync]
  · simp only [hb, Bool.false_eq_true, if_false]

/-- C1: `addDomain` and `deleteDomain` are atomic: whenever the control
plane rejects the proposed document (the transaction returns `false`), the
prior configuration is restored in full — the configurator after the
attempt equals the configurator before it, so in particular `listDomains()`
is unchanged and no partially-applied intermediate state remains. -/
theorem C1_add_delete_transactions_atomic (accept : Config → Bool) (c : Configurator)
    (d u : String) (hsync : c.config = c.cp) :
    (∀ c', Configurator.add_domain accept c d u = .ok (false, c') →
       c' = c ∧ Configurator.list_domains c' = Configurator.list_domains c) ∧
    (∀ c', Configurator.delete_domain accept c d = .ok (false, c') →
       c' = c ∧ Configurator.list_domains c' = Configurator.list_domains c) := by
  constructor
  · intro c' h
    by_cases hm : d ∈ c.config.map Prod.fst
    · rw [Configurator.add_domain_of_mem accept c u hm] at h
      exact absurd h (by simp)
    · by_cases ha : accept (c.config ++ [(d, u)]) = true
      · rw [Configurator.add_domain_of_accept accept c u hm ha] at h
        simp at h
      · rw [Configurator.add_domain_of_reject accept c u hsync hm
          (by simpa using ha)] at h
        have : c = c' := by simpa using h
        exact ⟨this.symm, by rw [this]⟩
  · intro c' h
    by_cases hm : d ∈ c.config.map Prod.fst
    · by_cases ha : accept (c.config.filter (fun r => r.1 ≠ d)) = true
      · rw [Configurator.delete_domain_of_accept accept c hm ha] at h
        simp at h
      · rw [Configurator.delete_domain_of_reject accept c hsync hm
          (by simpa using ha)] at h
        have : c = c' := by simpa using h
        exact ⟨this.symm, by rw [this]⟩
    · rw [Configurator.delete_domain_of_not_mem accept c hm] at h
      exact absurd h (by simp)

/-- Witness for C1: a control plane that rejects every load; both
transactions report failure and restore the one-domain configuration. -/
theorem C1_add_delete_transactions_atomic_witness :
    ((⟨[("a.com", "u:443")], [("a.com", "u:443")]⟩ : Configurator) =
        ⟨[("a.com", "u:443")], [("a.com", "u:443")]⟩ ∧
      Configurator.list_domains ⟨[("a.com", "u:443")], [("a.com", "u:443")]⟩ =
        Configurator.list_domains ⟨[("a.com", "u:443")], [("a.com", "u:443")]⟩) ∧
    ((⟨[("a.com", "u:443")], [("a.com", "u:443")]⟩ : Configurator) =
        ⟨[("a.com", "u:443")], [("a.com", "u:443")]⟩ ∧
      Configurator.list_domains ⟨[("a.com", "u:443")], [("a.com", "u:443")]⟩ =
        Configurator.list_domains ⟨[("a.com", "u:443")], [("a.com", "u:443")]⟩) :=
  ⟨(C1_add_delete_transactions_atomic (fun _ => false)
      ⟨[("a.com", "u:443")], [("a.com", "u:443")]⟩ "b.com" "v:443" rfl).1
      ⟨[("a.com", "u:443")], [("a.com", "u:443")]⟩ rfl,
   (C1_add_delete_transactions_atomic (fun _ => false)
      ⟨[("a.com", "u:443")], [("a.com", "u:443")]⟩ "a.com" "v:443" rfl).2
      ⟨[("a.com", "u:443")], [("a.com", "u:443")]⟩ rfl⟩

/-! ### System-level helpers -/

/-- The configurator's cached copy agrees with the control plane's live
config (established by every successful or rolled-back load). -/
def Sync (st : SysState) : Prop :=
  st.caddy.configurator.config = st.caddy.configurator.cp

theorem liveD_eq_config_keys {st : SysState} (hsync : Sync st) :
    liveD st = st.caddy.configurator.config.map Prod.fst := by
  rw [liveD, Configurator.list_domains, config_list_domains, hsync]

/-- C7: for a valid domain `d` neither live nor queued, `add(d, u)` enqueues
`d` with status pending, `enqueued_at = now` and the resolved upstream,
touching nothing else; for a domain already live or already queued, the call
is a complete no-op and not an error. -/
theorem C7_add_is_idempotent (env : Env) (st : SysState) (d : String)
    (u : Option String) (hvalid : env.valid d = true) :
    (d ∉ liveD st → lookupD st.queue d = none →
      (add_custom_domain env st d u).1 = .ok () ∧
      lookupD (add_custom_domain env st d u).2.queue d =
        some ⟨resolveUpstream u st.caddy.saasUpstream, env.now, .pending⟩ ∧
      (add_custom_domain env st d u).2.caddy = st.caddy ∧
      (add_custom_domain env st d u).2.files = st.files) ∧
    ((d ∈ liveD st ∨ (lookupD st.queue d).isSome) →
      add_custom_domain env st d u = (.ok (), st)) := by
  constructor
  · intro hnl hq
    rw [add_custom_domain, if_neg (by rw [hvalid]; exact fun h => Bool.true_eq_false ▸ h),
      if_neg hnl]
    exact ⟨rfl, Queue.lookupD_add_self st.queue d _ env.now hq, rfl, rfl⟩
  · intro h
    rw [add_custom_domain, if_neg (by rw [hvalid]; exact fun h => Bool.true_eq_false ▸ h)]
    by_cases hl : d ∈ liveD st
    · rw [if_pos hl]
    · rw [if_neg hl]
      rcases h with h | h
      · exact absurd h hl
      · rw [Queue.add_of_isSome st.queue d _ env.now h]

/-- Sample environment for witnesses: everything verifies and the control
plane accepts every document. -/
def sampleEnv : Env :=
  { valid := fun _ => true
    accept := fun _ => true
    aRecords := fun _ => Except.ok ["1.2.3.4"]
    txtRecords := fun _ => Except.ok [["bettercollected_t"]]
    now := 5
    ttl := 86400
    freshToken := "bettercollected_t" }

/-- Sample clean-start state for witnesses. -/
def sampleState : SysState := initState (some "1.2.3.4") "saas:443"

/-- Witness for C7: adding a fresh domain to the clean-start state enqueues
it pending; adding it again is a no-op. -/
theorem C7_add_is_idempotent_witness :
    ((add_custom_domain sampleEnv sampleState "a.com" none).1 = .ok () ∧
      lookupD (add_custom_domain sampleEnv sampleState "a.com" none).2.queue "a.com" =
        some ⟨resolveUpstream none sampleState.caddy.saasUpstream, sampleEnv.now, .pending⟩ ∧
      (add_custom_domain sampleEnv sampleState "a.com" none).2.caddy = sampleState.caddy ∧
      (add_custom_domain sampleEnv sampleState "a.com" none).2.files = sampleState.files) ∧
    (add_custom_domain sampleEnv
        (add_custom_domain sampleEnv sampleState "a.com" none).2 "a.com" (some "other:443") =
      (.ok (), (add_custom_domain sampleEnv sampleState "a.com" none).2)) :=
  ⟨(C7_add_is_idempotent sampleEnv sampleState "a.com" none rfl).1
      (by decide) (by decide),
   (C7_add_is_idempotent sampleEnv (add_custom_domain sampleEnv sampleState "a.com" none).2
      "a.com" (some "other:443") rfl).2 (Or.inr (by decide))⟩

/-! ### Promotion characterizations -/

/-- The state after a successful `addDomain` transaction. -/
def stAfterAdd (st : SysState) (d u : String) : SysState :=
  { st with caddy := { st.caddy with configurator :=
      ⟨st.caddy.configurator.config ++ [(d, u)],
       st.caddy.configurator.config ++ [(d, u)]⟩ } }

theorem liveD_stAfterAdd (st : SysState) (d u : String) :
    liveD (stAfterAdd st d u) = st.caddy.configurator.config.map Prod.fst ++ [d] := by
  simp [stAfterAdd, liveD, Configurator.list_domains, config_list_domains]

theorem promote_domain_of_live (env : Env) (st : SysState) {d : String} (u : String)
    (hsync : Sync st) (h : d ∈ liveD st) :
    promote_domain env st d u = .error .domainAlreadyExists := by
  simp only [promote_domain, Configurator.add_domain_of_mem env.accept _ u
    (by rwa [liveD_eq_config_keys hsync] at h)]

theorem promote_domain_of_accept (env : Env) (st : SysState) {d : String} (u : String)
    (hsync : Sync st) (h : d ∉ liveD st)
    (ha : env.accept (st.caddy.configurator.config ++ [(d, u)]) = true) :
    promote_domain env st d u = .ok (true, stAfterAdd st d u) := by
  simp only [promote_domain, Configurator.add_domain_of_accept env.accept _ u
    (by rwa [liveD_eq_config_keys hsync] at h) ha, stAfterAdd]

theorem promote_domain_of_reject (env : Env) (st : SysState) {d : String} (u : String)
    (hsync : Sync st) (h : d ∉ liveD st)
    (ha : env.accept (st.caddy.configurator.config ++ [(d, u)]) = false) :
    promote_domain env st d u = .ok (false, st) := by
  simp only [promote_domain, Configurator.add_domain_of_reject env.accept _ u hsync
    (by rwa [liveD_eq_config_keys hsync] at h) ha]

/-- After the tracking and reset phases of a verify call on a valid,
not-live domain, the call is on the happy path, the caddy state and token
files are untouched, and the domain is pending in the queue. -/
theorem verify_pre_promote (env : Env) (st : SysState) (d : String) (u : Option String)
    (hvalid : env.valid d = true) (hnl : d ∉ liveD st) :
    (verify_track env st d u false).1 = .ok () ∧
    (verify_reset env (verify_track env st d u false).2 d).caddy = st.caddy ∧
    (verify_reset env (verify_track env st d u false).2 d).files = st.files ∧
    Queue.is_pending (verify_reset env (verify_track env st d u false).2 d).queue d
      = true := by
  cases hq : lookupD st.queue d with
  | none =>
      have htrack : verify_track env st d u false = add_custom_domain env st d u := by
        rw [verify_track, if_pos ⟨rfl, by rw [Queue.get_status, hq]; rfl⟩]
      obtain ⟨h1, h2, h3, h4⟩ := (C7_add_is_idempotent env st d u hvalid).1 hnl hq
      have hreset : verify_reset env (add_custom_domain env st d u).2 d =
          (add_custom_domain env st d u).2 := by
        rw [verify_reset, if_neg ?_]
        rw [Queue.is_failed, Queue.get_status, h2]
        simp
      rw [htrack, hreset]
      refine ⟨h1, h3, h4, ?_⟩
      rw [Queue.is_pending, Queue.get_status, h2]
      simp
  | some e =>
      have htrack : verify_track env st d u false = (.ok (), st) := by
        rw [verify_track, if_neg ?_]
        rw [Queue.get_status, hq]
        simp
      rw [htrack]
      cases he : e.status with
      | pending =>
          have hreset : verify_reset env st d = st := by
            rw [verify_reset, if_neg ?_]
            rw [Queue.is_failed, Queue.get_status, hq]
            simp [he]
          rw [hreset]
          refine ⟨rfl, rfl, rfl, ?_⟩
          rw [Queue.is_pending, Queue.get_status, hq]
          simp [he]
      | failed =>
          have hreset : verify_reset env st d =
              { st with queue := Queue.mark_pending st.queue d env.now } := by
            rw [verify_reset, if_pos ?_]
            rw [Queue.is_failed, Queue.get_status, hq]
            simp [he]
          rw [hreset]
          refine ⟨rfl, rfl, rfl, ?_⟩
          rw [Queue.is_pending, Queue.get_status, Queue.lookupD_mark_pending,
            if_pos rfl, hq]
          simp

theorem liveD_update_files (st : SysState) (f : List (String × String)) :
    liveD { st with files := f } = liveD st := rfl

theorem sync_update_files (st : SysState) (f : List (String × String)) :
    Sync { st with files := f } ↔ Sync st := Iff.rfl

/-- C2: a verify call on a valid domain `d` that is not live promotes `d`
(i.e. `d` appears in `listDomains()` afterwards) exactly when the A check,
the TXT check (against the stored-or-created token) and the control-plane
load of the extended config all succeed; immediately after a promotion `d`
is absent from the pending queue; and one scheduler-loop iteration over a
queue item for `d` promotes under exactly the same conditions (with the
loop's file-token TXT check), likewise removing `d` from the queue. -/
theorem C2_promotion_exactly_once (env : Env) (st : SysState) (d : String)
    (u : Option String) (ip : String)
    (hip : st.caddy.serverIp = some ip) (hsync : Sync st)
    (hvalid : env.valid d = true) (hnl : d ∉ liveD st) :
    (((d ∈ liveD (verify_domain env st d u).2) ↔
      (check_a_record env.aRecords d ip = true ∧
       check_txt_record env.txtRecords d
         (getOrCreateToken st.files d env.freshToken).1 = true ∧
       env.accept (st.caddy.configurator.config ++
         [(d, resolveUpstream u st.caddy.saasUpstream)]) = true)) ∧
    (d ∈ liveD (verify_domain env st d u).2 →
      Queue.get_status (verify_domain env st d u).2.queue d = none)) ∧
    (∀ (e : Entry) (st' : SysState), tick_step env ip st (d, e) = .ok st' →
      ((d ∈ liveD st') ↔
        (check_a_record env.aRecords d ip = true ∧ loop_txt_ok env st d = true ∧
         env.accept (st.caddy.configurator.config ++ [(d, e.upstream)]) = true)) ∧
      (d ∈ liveD st' → Queue.get_status st'.queue d = none)) := by
  constructor
  case right =>
    intro e st' hstep
    rw [tick_step] at hstep
    by_cases hg : (check_a_record env.aRecords d ip = true ∧ loop_txt_ok env st d = true)
    · rw [if_pos hg] at hstep
      by_cases hacc : env.accept (st.caddy.configurator.config ++ [(d, e.upstream)]) = true
      · rw [promote_domain_of_accept env st e.upstream hsync hnl hacc] at hstep
        have hst' : ({ stAfterAdd st d e.upstream with queue := Queue.remove (stAfterAdd st d e.upstream).queue d } : SysState) = st' := by
          simpa using hstep
        rw [← hst']
        constructor
        · constructor
          · intro _; exact ⟨hg.1, hg.2, hacc⟩
          · intro _
            have : d ∈ liveD (stAfterAdd st d e.upstream) := by
              rw [liveD_stAfterAdd]
              exact List.mem_append.mpr (Or.inr (List.mem_singleton.mpr rfl))
            exact this
        · intro _
          show Queue.get_status (Queue.remove (stAfterAdd st d e.upstream).queue d) d = none
          rw [Queue.get_status, Queue.lookupD_remove, if_pos rfl]
          rfl
      · rw [promote_domain_of_reject env st e.upstream hsync hnl (by simpa using hacc)] at hstep
        have hst' : st = st' := by simpa using hstep
        rw [← hst']
        exact ⟨⟨fun hm => absurd hm hnl, fun hc => absurd hc.2.2 hacc⟩,
          fun hm => absurd hm hnl⟩
    · rw [if_neg hg] at hstep
      have hst' : st = st' := by simpa using hstep
      rw [← hst']
      refine ⟨⟨fun hm => absurd hm hnl, ?_⟩, fun hm => absurd hm hnl⟩
      rintro ⟨ha, ht, -⟩
      exact (hg ⟨ha, ht⟩).elim
  have hb : (decide (d ∈ liveD st) : Bool) = false := decide_eq_false hnl
  obtain ⟨h1, h2, h3, h4⟩ := verify_pre_promote env st d u hvalid hnl
  simp only [verify_domain, hip, hb, h1, h3, h4, h2]
  set S : SysState :=
    { caddy := st.caddy,
      queue := (verify_reset env (verify_track env st d u false).2 d).queue,
      files := (getOrCreateToken st.files d env.freshToken).2 } with hS
  have hSnl : d ∉ liveD S := hnl
  have hSsync : Sync S := hsync
  by_cases haok : check_a_record env.aRecords d ip = true
  · by_cases htok : check_txt_record env.txtRecords d
        (getOrCreateToken st.files d env.freshToken).1 = true
    · rw [if_pos ⟨haok, htok, trivial, trivial⟩]
      by_cases hacc : env.accept (st.caddy.configurator.config ++
          [(d, resolveUpstream u st.caddy.saasUpstream)]) = true
      · rw [verify_promote, promote_domain_of_accept env S
          (resolveUpstream u st.caddy.saasUpstream) hSsync hSnl hacc]
        have hmem : d ∈ liveD (stAfterAdd S d (resolveUpstream u st.caddy.saasUpstream)) := by
          rw [liveD_stAfterAdd]
          exact List.mem_append.mpr (Or.inr (List.mem_singleton.mpr rfl))
        have hgone : Queue.get_status
            (Queue.remove (stAfterAdd S d (resolveUpstream u st.caddy.saasUpstream)).queue d)
            d = none := by
          rw [Queue.get_status, Queue.lookupD_remove, if_pos rfl]
          rfl
        exact ⟨⟨fun _ => ⟨haok, htok, hacc⟩, fun _ => hmem⟩, fun _ => hgone⟩
      · rw [verify_promote, promote_domain_of_reject env S
          (resolveUpstream u st.caddy.saasUpstream) hSsync hSnl
          (by simpa using hacc)]
        exact ⟨⟨fun hm => absurd hm hSnl, fun hc => absurd hc.2.2 hacc⟩,
          fun hm => absurd hm hSnl⟩
    · rw [if_neg (by intro hc; exact htok hc.2.1)]
      exact ⟨⟨fun hm => absurd hm hSnl, fun hc => absurd hc.2.1 htok⟩,
        fun hm => absurd hm hSnl⟩
  · rw [if_neg (by intro hc; exact haok hc.1)]
    exact ⟨⟨fun hm => absurd hm hSnl, fun hc => absurd hc.1 haok⟩,
      fun hm => absurd hm hSnl⟩

/-- Witness for C2 on the clean-start state where all checks succeed. -/
theorem C2_promotion_exactly_once_witness :
    (("a.com" ∈ liveD (verify_domain sampleEnv sampleState "a.com" none).2) ↔
      (check_a_record sampleEnv.aRecords "a.com" "1.2.3.4" = true ∧
       check_txt_record sampleEnv.txtRecords "a.com"
         (getOrCreateToken sampleState.files "a.com" sampleEnv.freshToken).1 = true ∧
       sampleEnv.accept (sampleState.caddy.configurator.config ++
         [("a.com", resolveUpstream none sampleState.caddy.saasUpstream)]) = true)) ∧
    ("a.com" ∈ liveD (verify_domain sampleEnv sampleState "a.com" none).2 →
      Queue.get_status (verify_domain sampleEnv sampleState "a.com" none).2.queue
        "a.com" = none) :=
  (C2_promotion_exactly_once sampleEnv sampleState "a.com" none "1.2.3.4" rfl rfl rfl
    (by decide)).1

/-- C10: verifying a domain that is already live leaves the pending queue
untouched (it is not enqueued, and — given the domain is not sitting in the
queue as failed, which the exclusivity invariant rules out — no entry is
modified), and the reported `queue_status` is `"verified"` whatever the A
and TXT checks returned. -/
theorem C10_verify_live_domain_is_frame (env : Env) (st : SysState) (d : String)
    (u : Option String) (ip : String) (hip : st.caddy.serverIp = some ip)
    (hlive : d ∈ liveD st) (hnf : Queue.is_failed st.queue d = false) :
    (verify_domain env st d u).2.queue = st.queue ∧
    (∀ res, (verify_domain env st d u).1 = .ok res →
      res.queue_status = some "verified") := by
  have hb : (decide (d ∈ liveD st) : Bool) = true := decide_eq_true hlive
  have htrack : verify_track env st d u true = (.ok (), st) := by
    rw [verify_track, if_neg]
    rintro ⟨hc, -⟩
    exact absurd hc (by simp)
  have hreset : verify_reset env st d = st := by
    rw [verify_reset, if_neg]
    rw [hnf]
    simp
  simp only [verify_domain, hip, hb, htrack, hreset]
  rw [if_neg (by rintro ⟨-, -, hc, -⟩; exact absurd hc (by simp))]
  refine ⟨rfl, ?_⟩
  intro res hres
  have hr : verifyResult
      { caddy := st.caddy, queue := st.queue,
        files := (getOrCreateToken st.files d env.freshToken).2 } d ip
      (check_a_record env.aRecords d ip)
      (check_txt_record env.txtRecords d (getOrCreateToken st.files d env.freshToken).1)
      = res := Except.ok.inj hres
  rw [← hr, verifyResult]
  have hlive3 : d ∈ liveD ({ caddy := st.caddy, queue := st.queue, files := (getOrCreateToken st.files d env.freshToken).2 } : SysState) := hlive
  simp only
  rw [if_pos hlive3]

/-! ### The queue/live exclusivity invariant -/

/-- No queued domain is live. -/
def QueueLiveExclusive (st : SysState) : Prop :=
  ∀ x : String, (lookupD st.queue x).isSome → x ∉ liveD st

/-- The inductive system invariant: configurator cache in sync with the
control plane, and queue membership exclusive with live membership. -/
def Inv (st : SysState) : Prop := Sync st ∧ QueueLiveExclusive st

theorem map_fst_filter_subset {α β : Type} (l : List (α × β)) (p : α × β → Bool) :
    ((l.filter p).map Prod.fst) ⊆ l.map Prod.fst := by
  intro x hx
  obtain ⟨rt, hrt, rfl⟩ := List.mem_map.mp hx
  exact List.mem_map.mpr ⟨rt, List.mem_of_mem_filter hrt, rfl⟩

theorem inv_add_custom_domain (env : Env) (st : SysState) (d : String)
    (u : Option String) (h : Inv st) : Inv (add_custom_domain env st d u).2 := by
  obtain ⟨hs, hx⟩ := h
  simp only [add_custom_domain]
  by_cases hv : env.valid d = false
  · rw [if_pos hv]
    exact ⟨hs, hx⟩
  · rw [if_neg hv]
    by_cases hl : d ∈ liveD st
    · rw [if_pos hl]
      exact ⟨hs, hx⟩
    · rw [if_neg hl]
      refine ⟨hs, ?_⟩
      intro x hx'
      by_cases hxd : x = d
      · subst hxd
        exact hl
      · rw [Queue.lookupD_add_of_ne st.queue d _ env.now hxd] at hx'
        exact hx x hx'

theorem inv_verify_reset (env : Env) (st : SysState) (d : String) (h : Inv st) :
    Inv (verify_reset env st d) := by
  obtain ⟨hs, hx⟩ := h
  rw [verify_reset]
  by_cases hf : Queue.is_failed st.queue d = true
  · rw [if_pos hf]
    refine ⟨hs, ?_⟩
    intro x hx'
    rw [Queue.lookupD_mark_pending] at hx'
    by_cases hxd : x = d
    · rw [if_pos hxd] at hx'
      apply hx x
      cases hq : lookupD st.queue x with
      | none => rw [hq] at hx'; simp at hx'
      | some e => rfl
    · rw [if_neg hxd] at hx'
      exact hx x hx'
  · rw [if_neg hf]
    exact ⟨hs, hx⟩

theorem inv_verify_promote (env : Env) (st : SysState) (d ru ip : String)
    (a t : Bool) (h : Inv st) : Inv (verify_promote env st d ru ip a t).2 := by
  obtain ⟨hs, hx⟩ := h
  by_cases hl : d ∈ liveD st
  · rw [verify_promote, promote_domain_of_live env st ru hs hl]
    exact ⟨hs, hx⟩
  · by_cases ha : env.accept (st.caddy.configurator.config ++ [(d, ru)]) = true
    · rw [verify_promote, promote_domain_of_accept env st ru hs hl ha]
      refine ⟨rfl, ?_⟩
      intro x hx'
      have hx'' : (lookupD (Queue.remove (stAfterAdd st d ru).queue d) x).isSome = true := hx'
      rw [Queue.lookupD_remove] at hx''
      by_cases hxd : x = d
      · rw [if_pos hxd] at hx''
        simp at hx''
      · rw [if_neg hxd] at hx''
        have hnl : x ∉ liveD st := hx x hx''
        intro hmem
        have hmem' : x ∈ liveD (stAfterAdd st d ru) := hmem
        rw [liveD_stAfterAdd] at hmem'
        rcases List.mem_append.mp hmem' with h1 | h1
        · exact hnl (by rwa [liveD_eq_config_keys hs])
        · exact hxd (List.mem_singleton.mp h1)
    · rw [verify_promote, promote_domain_of_reject env st ru hs hl (by simpa using ha)]
      exact ⟨hs, hx⟩

theorem inv_verify_track (env : Env) (st : SysState) (d : String) (u : Option String)
    (b : Bool) (h : Inv st) : Inv (verify_track env st d u b).2 := by
  rw [verify_track]
  by_cases hc : b = false ∧ (Queue.get_status st.queue d).isNone
  · rw [if_pos hc]
    exact inv_add_custom_domain env st d u h
  · rw [if_neg hc]
    exact h

theorem inv_verify_domain (env : Env) (st : SysState) (d : String)
    (u : Option String) (h : Inv st) : Inv (verify_domain env st d u).2 := by
  cases hip : st.caddy.serverIp with
  | none =>
      simp only [verify_domain, hip]
      exact h
  | some ip =>
      simp only [verify_domain, hip]
      have htrack := inv_verify_track env st d u (decide (d ∈ liveD st)) h
      cases htr : (verify_track env st d u (decide (d ∈ liveD st))).1 with
      | error e =>
          simp only [htr]
          exact htrack
      | ok r =>
          simp only [htr]
          have hreset := inv_verify_reset env _ d htrack
          set st2 := verify_reset env (verify_track env st d u (decide (d ∈ liveD st))).2 d
          have hst3 : Inv ({ caddy := st2.caddy, queue := st2.queue, files := (getOrCreateToken st2.files d env.freshToken).2 } : SysState) := hreset
          by_cases hg : (check_a_record env.aRecords d ip = true ∧
              check_txt_record env.txtRecords d
                (getOrCreateToken st2.files d env.freshToken).1 = true ∧
              decide (d ∈ liveD st) = false ∧
              Queue.is_pending st2.queue d = true)
          · rw [if_pos hg]
            exact inv_verify_promote env _ d _ ip _ _ hst3
          · rw [if_neg hg]
            exact hst3

theorem inv_remove_custom_domain (env : Env) (st : SysState) (d : String)
    (h : Inv st) : Inv (remove_custom_domain env st d).2 := by
  obtain ⟨hs, hx⟩ := h
  simp only [remove_custom_domain]
  by_cases hv : env.valid d = false
  · rw [if_pos hv]
    exact ⟨hs, hx⟩
  · rw [if_neg hv]
    by_cases hm : d ∈ st.caddy.configurator.config.map Prod.fst
    · by_cases ha : env.accept
          (st.caddy.configurator.config.filter (fun r => r.1 ≠ d)) = true
      · rw [Configurator.delete_domain_of_accept env.accept _ hm ha]
        refine ⟨rfl, ?_⟩
        intro x hx'
        have hnl : x ∉ liveD st := hx x hx'
        intro hmem
        apply hnl
        rw [liveD_eq_config_keys hs]
        exact map_fst_filter_subset _ _ hmem
      · rw [Configurator.delete_domain_of_reject env.accept _ hs hm (by simpa using ha)]
        exact ⟨hs, hx⟩
    · rw [Configurator.delete_domain_of_not_mem env.accept _ hm]
      exact ⟨hs, hx⟩

theorem inv_queue_remove (st : SysState) (d : String) (h : Inv st) :
    Inv { st with queue := Queue.remove st.queue d } := by
  obtain ⟨hs, hx⟩ := h
  refine ⟨hs, ?_⟩
  intro x hx'
  rw [Queue.lookupD_remove] at hx'
  by_cases hxd : x = d
  · rw [if_pos hxd] at hx'
    simp at hx'
  · rw [if_neg hxd] at hx'
    exact hx x hx'

theorem inv_remove_domains (env : Env) (st : SysState) (d : String) (h : Inv st) :
    Inv (remove_domains env st d).2 := by
  have h1 : Inv { st with queue := Queue.remove st.queue d } := inv_queue_remove st d h
  simp only [remove_domains]
  by_cases hl : d ∈ liveD { st with queue := Queue.remove st.queue d }
  · rw [if_pos hl]
    have h2 := inv_remove_custom_domain env _ d h1
    cases hr : (remove_custom_domain env { st with queue := Queue.remove st.queue d } d).1 with
    | error e => simp only [hr]; exact h2
    | ok r => simp only [hr]; exact h2
  · rw [if_neg hl]
    exact h1

theorem inv_tick_step (env : Env) (ip : String) (st : SysState)
    (item : String × Entry) (h : Inv st) :
    (∀ st', tick_step env ip st item = .ok st' → Inv st') ∧
    (∀ st', tick_step env ip st item = .error st' → Inv st') := by
  obtain ⟨hs, hx⟩ := h
  rw [tick_step]
  by_cases hg : (check_a_record env.aRecords item.1 ip = true ∧
      loop_txt_ok env st item.1 = true)
  · rw [if_pos hg]
    by_cases hl : item.1 ∈ liveD st
    · rw [promote_domain_of_live env st item.2.upstream hs hl]
      constructor
      · intro st' hst'
        exact absurd hst' (by simp)
      · intro st' hst'
        have : st = st' := by simpa using hst'
        rw [← this]
        exact ⟨hs, hx⟩
    · by_cases ha : env.accept
          (st.caddy.configurator.config ++ [(item.1, item.2.upstream)]) = true
      · rw [promote_domain_of_accept env st item.2.upstream hs hl ha]
        constructor
        · intro st' hst'
          have hst'' : ({ stAfterAdd st item.1 item.2.upstream with queue := Queue.remove (stAfterAdd st item.1 item.2.upstream).queue item.1 } : SysState) = st' := by
            simpa using hst'
          rw [← hst'']
          refine ⟨rfl, ?_⟩
          intro x hx'
          rw [Queue.lookupD_remove] at hx'
          by_cases hxd : x = item.1
          · rw [if_pos hxd] at hx'
            simp at hx'
          · rw [if_neg hxd] at hx'
            have hnl : x ∉ liveD st := hx x hx'
            intro hmem
            have hmem' : x ∈ liveD (stAfterAdd st item.1 item.2.upstream) := hmem
            rw [liveD_stAfterAdd] at hmem'
            rcases List.mem_append.mp hmem' with h1 | h1
            · exact hnl (by rwa [liveD_eq_config_keys hs])
            · exact hxd (List.mem_singleton.mp h1)
        · intro st' hst'
          exact absurd hst' (by simp)
      · rw [promote_domain_of_reject env st item.2.upstream hs hl (by simpa using ha)]
        constructor
        · intro st' hst'
          have : st = st' := by simpa using hst'
          rw [← this]
          exact ⟨hs, hx⟩
        · intro st' hst'
          exact absurd hst' (by simp)
  · rw [if_neg hg]
    constructor
    · intro st' hst'
      have : st = st' := by simpa using hst'
      rw [← this]
      exact ⟨hs, hx⟩
    · intro st' hst'
      exact absurd hst' (by simp)

theorem inv_tick_fold (env : Env) (ip : String) (l : List (String × Entry))
    (st : SysState) (h : Inv st) : Inv (tick_fold env ip st l) := by
  induction l generalizing st with
  | nil => exact h
  | cons item rest ih =>
      cases hts : tick_step env ip st item with
      | ok st' =>
          simp only [tick_fold, hts]
          exact ih st' ((inv_tick_step env ip st item h).1 st' hts)
      | error st' =>
          simp only [tick_fold, hts]
          exact (inv_tick_step env ip st item h).2 st' hts

theorem inv_cleanup (st : SysState) (now ttl : Int) (h : Inv st) :
    Inv { st with queue := (Queue.cleanup_expired st.queue now ttl).2 } := by
  obtain ⟨hs, hx⟩ := h
  refine ⟨hs, ?_⟩
  intro x hx'
  rw [Queue.lookupD_cleanup] at hx'
  apply hx x
  cases hq : lookupD st.queue x with
  | none => rw [hq] at hx'; simp at hx'
  | some e => rfl

theorem inv_pending_tick (env : Env) (st : SysState) (h : Inv st) :
    Inv (pending_tick env st) := by
  have h1 := inv_cleanup st env.now env.ttl h
  simp only [pending_tick]
  cases hip : st.caddy.serverIp with
  | none => exact h1
  | some ip => exact inv_tick_fold env ip _ _ h1

theorem delete_domain_sync_subset (accept : Config → Bool) (c : Configurator)
    (d : String) (hsync : c.config = c.cp) (ok : Bool) (c' : Configurator)
    (hd : Configurator.delete_domain accept c d = .ok (ok, c')) :
    c'.config = c'.cp ∧ ∀ x, x ∈ c'.cp.map Prod.fst → x ∈ c.cp.map Prod.fst := by
  by_cases hm : d ∈ c.config.map Prod.fst
  · by_cases ha : accept (c.config.filter (fun r => r.1 ≠ d)) = true
    · rw [Configurator.delete_domain_of_accept accept c hm ha] at hd
      obtain ⟨-, hc'⟩ : ok = true ∧ (⟨c.config.filter (fun r => r.1 ≠ d),
          c.config.filter (fun r => r.1 ≠ d)⟩ : Configurator) = c' := by
        simpa using hd
      rw [← hc']
      refine ⟨rfl, ?_⟩
      intro x hxm
      rw [← hsync]
      exact map_fst_filter_subset _ _ hxm
    · rw [Configurator.delete_domain_of_reject accept c hsync hm (by simpa using ha)] at hd
      obtain ⟨-, hc'⟩ : ok = false ∧ c = c' := by simpa using hd
      rw [← hc']
      exact ⟨hsync, fun x hxm => hxm⟩
  · rw [Configurator.delete_domain_of_not_mem accept c hm] at hd
    exact absurd hd (by simp)

theorem audit_step_sync_subset (env : Env) (ip : String) (acc : List String × Configurator)
    (dom : String) (hsync : acc.2.config = acc.2.cp) :
    (audit_step env ip acc dom).2.config = (audit_step env ip acc dom).2.cp ∧
    ∀ x, x ∈ (audit_step env ip acc dom).2.cp.map Prod.fst → x ∈ acc.2.cp.map Prod.fst := by
  rw [audit_step]
  by_cases hA : check_a_record env.aRecords dom ip = true
  · rw [if_pos hA]
    exact ⟨hsync, fun x hxm => hxm⟩
  · rw [if_neg hA]
    cases hd : Configurator.delete_domain env.accept acc.2 dom with
    | error e => exact ⟨hsync, fun x hxm => hxm⟩
    | ok r =>
        obtain ⟨ok, c'⟩ := r
        exact delete_domain_sync_subset env.accept acc.2 dom hsync ok c' hd

theorem audit_fold_sync_subset (env : Env) (ip : String) (l : List String)
    (acc : List String × Configurator) (hsync : acc.2.config = acc.2.cp) :
    (l.foldl (audit_step env ip) acc).2.config = (l.foldl (audit_step env ip) acc).2.cp ∧
    ∀ x, x ∈ (l.foldl (audit_step env ip) acc).2.cp.map Prod.fst →
      x ∈ acc.2.cp.map Prod.fst := by
  induction l generalizing acc with
  | nil => exact ⟨hsync, fun x hxm => hxm⟩
  | cons dom rest ih =>
      rw [List.foldl_cons]
      obtain ⟨h1, h2⟩ := audit_step_sync_subset env ip acc dom hsync
      obtain ⟨h3, h4⟩ := ih (audit_step env ip acc dom) h1
      exact ⟨h3, fun x hxm => h2 x (h4 x hxm)⟩

theorem inv_audit_domains (env : Env) (st : SysState) (h : Inv st) :
    Inv (audit_domains env st).2 := by
  obtain ⟨hs, hx⟩ := h
  simp only [audit_domains]
  cases hip : st.caddy.serverIp with
  | none => exact ⟨hs, hx⟩
  | some ip =>
      obtain ⟨h1, h2⟩ := audit_fold_sync_subset env ip (liveD st)
        ([], st.caddy.configurator) hs
      refine ⟨h1, ?_⟩
      intro x hx'
      have hnl : x ∉ liveD st := hx x hx'
      intro hmem
      exact hnl (h2 x hmem)

theorem inv_step {s s' : SysState} (h : Inv s) (hs : Step s s') : Inv s' := by
  cases hs with
  | add env st d u => exact inv_add_custom_domain env s d u h
  | verify env st d u => exact inv_verify_domain env s d u h
  | tick env st => exact inv_pending_tick env s h
  | del env st d => exact inv_remove_domains env s d h
  | audit env st => exact inv_audit_domains env s h

theorem inv_init (ip : Option String) (saas : String) : Inv (initState ip saas) := by
  refine ⟨rfl, ?_⟩
  intro x hx
  simp [initState, lookupD] at hx

theorem reachable_inv {s : SysState} (h : Reachable s) : Inv s := by
  induction h with
  | init ip saas => exact inv_init ip saas
  | step hr hstep ih => exact inv_step ih hstep

/-- C3: in every state reachable by any sequence of add, verify, scheduler
tick, delete and audit operations, no domain is simultaneously live in the
proxy config and present in the pending queue. -/
theorem C3_queue_and_live_mutually_exclusive (st : SysState) (h : Reachable st)
    (d : String) : ¬(d ∈ liveD st ∧ (Queue.get_status st.queue d).isSome) := by
  rintro ⟨hl, hq⟩
  apply (reachable_inv h).2 d ?_ hl
  rw [Queue.get_status] at hq
  cases hq' : lookupD st.queue d with
  | none => rw [hq'] at hq; simp at hq
  | some e => rfl

/-- Witness for C3 at the clean-start state. -/
theorem C3_queue_and_live_mutually_exclusive_witness :
    ¬("a.com" ∈ liveD (initState (some "1.2.3.4") "saas:443") ∧
      (Queue.get_status (initState (some "1.2.3.4") "saas:443").queue "a.com").isSome) :=
  C3_queue_and_live_mutually_exclusive (initState (some "1.2.3.4") "saas:443")
    (Reachable.init (some "1.2.3.4") "saas:443") "a.com"

/-! ### The audit sweep as a filter -/

theorem audit_step_of_check (env : Env) (ip : String) (r0 : List String)
    (c : Configurator) {dom : String} (hA : check_a_record env.aRecords dom ip = true) :
    audit_step env ip (r0, c) dom = (r0, c) := by
  simp only [audit_step]
  rw [if_pos hA]

theorem audit_step_of_drift_mem (env : Env) (ip : String) (r0 : List String)
    (c : Configurator) {dom : String} (hA : check_a_record env.aRecords dom ip = false)
    (hm : dom ∈ c.config.map Prod.fst)
    (ha : env.accept (c.config.filter (fun r => r.1 ≠ dom)) = true) :
    audit_step env ip (r0, c) dom =
      (r0 ++ [dom], ⟨c.config.filter (fun r => r.1 ≠ dom),
        c.config.filter (fun r => r.1 ≠ dom)⟩) := by
  simp only [audit_step]
  rw [if_neg (by simp [hA]), Configurator.delete_domain_of_accept env.accept c hm ha]

theorem audit_step_of_drift_not_mem (env : Env) (ip : String) (r0 : List String)
    (c : Configurator) {dom : String} (hA : check_a_record env.aRecords dom ip = false)
    (hm : dom ∉ c.config.map Prod.fst) :
    audit_step env ip (r0, c) dom = (r0, c) := by
  simp only [audit_step]
  rw [if_neg (by simp [hA]), Configurator.delete_domain_of_not_mem env.accept c hm]

/-- With an always-accepting control plane, the audit fold keeps exactly the
routes whose hostnames either still pass the A check or were not in the
swept snapshot; the cached copy stays in sync. -/
theorem audit_fold_filter (env : Env) (ip : String) (l : List String)
    (c : Configurator) (r0 : List String)
    (hsync : c.config = c.cp) (hacc : ∀ cfg, env.accept cfg = true) :
    (l.foldl (audit_step env ip) (r0, c)).2.cp =
      c.cp.filter
        (fun rt => check_a_record env.aRecords rt.1 ip || !(decide (rt.1 ∈ l))) := by
  induction l generalizing c r0 with
  | nil =>
      rw [List.foldl_nil]
      symm
      apply List.filter_eq_self.mpr
      intro rt _
      simp
  | cons dom rest ih =>
      rw [List.foldl_cons]
      by_cases hA : check_a_record env.aRecords dom ip = true
      · rw [audit_step_of_check env ip r0 c hA, ih c r0 hsync]
        apply List.filter_congr
        intro rt _
        by_cases hrd : rt.1 = dom
        · rw [hrd, hA]
          simp
        · simp [hrd]
      · have hA' : check_a_record env.aRecords dom ip = false := by
          simpa using hA
        by_cases hm : dom ∈ c.config.map Prod.fst
        · rw [audit_step_of_drift_mem env ip r0 c hA' hm (hacc _),
            ih _ _ rfl]
          rw [hsync, List.filter_filter]
          apply List.filter_congr
          intro rt _
          by_cases hrd : rt.1 = dom
          · rw [hrd]
            simp [hA']
          · simp [hrd]
        · rw [audit_step_of_drift_not_mem env ip r0 c hA' hm, ih c r0 hsync]
          apply List.filter_congr
          intro rt hrt
          have hrd : rt.1 ≠ dom := by
            intro hh
            apply hm
            rw [hsync]
            exact List.mem_map.mpr ⟨rt, hrt, hh⟩
          simp [hrd]

/-- C9: a run of the audit sweep (with the control plane accepting the
resulting configs) removes every live domain whose A record no longer
resolves to the server's IP; afterwards such a domain is in neither the
pending queue (which the sweep never touches, and which — by the
exclusivity invariant — did not contain it) nor the live set, while live
domains whose A record still matches remain live. -/
theorem C9_audit_sweep_removes_drifted (env : Env) (st : SysState) (ip d : String)
    (hip : st.caddy.serverIp = some ip) (hsync : Sync st)
    (hacc : ∀ cfg, env.accept cfg = true) (hq : lookupD st.queue d = none) :
    (audit_domains env st).2.queue = st.queue ∧
    (check_a_record env.aRecords d ip = false →
      d ∉ liveD (audit_domains env st).2 ∧
      lookupD (audit_domains env st).2.queue d = none) ∧
    (check_a_record env.aRecords d ip = true → d ∈ liveD st →
      d ∈ liveD (audit_domains env st).2) := by
  have hfold := audit_fold_filter env ip (liveD st) st.caddy.configurator [] hsync hacc
  have hqeq : (audit_domains env st).2.queue = st.queue := by
    simp only [audit_domains, hip]
  have hlive : liveD (audit_domains env st).2 =
      (st.caddy.configurator.cp.filter
        (fun rt => check_a_record env.aRecords rt.1 ip ||
          !(decide (rt.1 ∈ liveD st)))).map Prod.fst := by
    simp only [audit_domains, hip]
    show ((List.foldl (audit_step env ip) ([], st.caddy.configurator)
      (liveD st)).2.cp).map Prod.fst = _
    rw [hfold]
  refine ⟨hqeq, ?_, ?_⟩
  · intro hA
    refine ⟨?_, by rw [hqeq]; exact hq⟩
    rw [hlive]
    intro hmem
    obtain ⟨rt, hrt, hfst⟩ := List.mem_map.mp hmem
    obtain ⟨hrtcp, hpred⟩ := List.mem_filter.mp hrt
    have hmem2 : rt.1 ∈ liveD st := List.mem_map.mpr ⟨rt, hrtcp, rfl⟩
    rw [hfst] at hpred
    rw [hfst] at hmem2
    simp [hA, hmem2] at hpred
  · intro hA hl
    rw [hlive]
    obtain ⟨rt, hrtcp, hfst⟩ :=
      List.mem_map.mp (show d ∈ st.caddy.configurator.cp.map Prod.fst from hl)
    apply List.mem_map.mpr
    refine ⟨rt, List.mem_filter.mpr ⟨hrtcp, ?_⟩, hfst⟩
    rw [hfst, hA]
    simp

/-- The clean-start state after a fully successful verify of `"a.com"`: the
domain is live and the pending queue is empty. -/
def sampleLiveState : SysState := (verify_domain sampleEnv sampleState "a.com" none).2

/-- Witness for C9: in a state where `"a.com"` is live, an audit run whose
resolver fails removes it. -/
theorem C9_audit_sweep_removes_drifted_witness :
    (audit_domains { sampleEnv with aRecords := fun _ => .error .nxdomain }
        sampleLiveState).2.queue = sampleLiveState.queue ∧
    (check_a_record (fun _ => .error .nxdomain) "a.com" "1.2.3.4" = false →
      "a.com" ∉ liveD (audit_domains { sampleEnv with aRecords := fun _ => .error .nxdomain }
        sampleLiveState).2 ∧
      lookupD (audit_domains { sampleEnv with aRecords := fun _ => .error .nxdomain }
        sampleLiveState).2.queue "a.com" = none) ∧
    (check_a_record (fun _ => .error .nxdomain) "a.com" "1.2.3.4" = true →
      "a.com" ∈ liveD sampleLiveState →
      "a.com" ∈ liveD (audit_domains { sampleEnv with aRecords := fun _ => .error .nxdomain }
        sampleLiveState).2) :=
  C9_audit_sweep_removes_drifted { sampleEnv with aRecords := fun _ => .error .nxdomain }
    sampleLiveState "1.2.3.4" "a.com" (by decide) rfl (fun _ => rfl) (by decide)

/-- Witness for C10: verifying the already-live `"a.com"` leaves the queue
unchanged and reports `"verified"`. -/
theorem C10_verify_live_domain_is_frame_witness :
    (verify_domain sampleEnv sampleLiveState "a.com" none).2.queue =
      sampleLiveState.queue ∧
    (∀ res, (verify_domain sampleEnv sampleLiveState "a.com" none).1 = .ok res →
      res.queue_status = some "verified") :=
  C10_verify_live_domain_is_frame sampleEnv sampleLiveState "a.com" none "1.2.3.4"
    (by decide) (by decide) (by decide)

end CustomDomain
